import Mathlib

/-!
Verification development for the `scibowlbuzzer` server
(`src/server/index.js`).  The server keeps a registry of rooms; each room
holds teams, players, a phase, a buzz arbiter, a countdown timer, a
lockout set and a per-toss-up scoring ledger.  Socket handlers mutate a
room and broadcast a snapshot.  We embed the room state and every handler
as pure Lean functions; timestamps (`Date.now()`) and payloads are passed
as explicit arguments, and the scheduled toss-up-end callback is embedded
as the pure firing function `tossupEndFire` plus a boolean field that
records whether a timeout handle is currently set.
-/

namespace ScibowlBuzzer

abbrev TeamId := String
abbrev SocketId := String

/-- The six phases of a room (comment on line 216 of the source). -/
inductive Phase
  | lobby
  | tossup_reading
  | tossup_live
  | tossup_closed
  | bonus_reading
  | bonus_live
deriving DecidableEq

/-- `room.timer.mode` is the string "tossup" or "bonus". -/
inductive TimerMode
  | tossup
  | bonus
deriving DecidableEq

/-- `room.timer`: times are in milliseconds, as JS numbers (modelled as `Int`). -/
structure Timer where
  mode : TimerMode
  running : Bool
  remainingMs : Int
  endsAtMs : Int
deriving DecidableEq

/-- Return value of `computeTimerSnapshot`. -/
structure TimerSnapshot where
  mode : TimerMode
  running : Bool
  remainingMs : Int
  endsAtMs : Int
deriving DecidableEq

/-- The fields of a locked buzz (lines 361-368). `atMs` embeds the JS field `at`. -/
structure BuzzInfo where
  winnerSocketId : SocketId
  winnerName : String
  winnerTeamId : TeamId
  atMs : Int
  interruptChoice : Option Bool
deriving DecidableEq

/-- `room.buzz` is either `{locked:false}` or `{locked:true, ...}`. -/
inductive Buzz
  | unlocked
  | locked (info : BuzzInfo)
deriving DecidableEq

/-- `room.buzz.locked`. -/
def Buzz.isLocked : Buzz → Bool
  | .unlocked => false
  | .locked _ => true

/-- The team currently holding the buzz lock, if any. -/
def Buzz.winnerTeam : Buzz → Option TeamId
  | .unlocked => none
  | .locked info => some info.winnerTeamId

structure Team where
  id : TeamId
  name : String
  score : Int
deriving DecidableEq

structure Player where
  socketId : SocketId
  name : String
  teamId : Option TeamId
  isHost : Bool
  isSpectator : Bool
deriving DecidableEq

/-- The three per-toss-up delta fields of a ledger row entry. -/
inductive RowField
  | p
  | tu
  | b
deriving DecidableEq

/-- One team's entry in a ledger row: `{p, tu, b, score}` (line 122). -/
structure RowTeam where
  p : Int
  tu : Int
  b : Int
  score : Int
deriving DecidableEq

/-- One ledger row: `{num, teams}` where `teams` is keyed by team id. -/
structure Row where
  num : Int
  teams : List (TeamId × RowTeam)
deriving DecidableEq

/-- `room.match = {tossupNumber, rows}`; `match` is a Lean keyword, hence `MatchLog`. -/
structure MatchLog where
  tossupNumber : Int
  rows : List Row
deriving DecidableEq

/-- `room.settings` (line 213): seconds, fixed at creation. -/
structure Settings where
  tossupSeconds : Int
  bonusSeconds : Int
deriving DecidableEq

/-- A room (lines 209-223).  JS `Map`s are embedded as insertion-ordered
association lists, the JS `Set` `tossupLockedTeams` as a duplicate-free
list, and `tossupEndTimeout` (a timeout handle or `null`) as the boolean
"a handle is currently stored". -/
structure Room where
  code : String
  roomName : String
  hostSocketId : SocketId
  settings : Settings
  teams : List (TeamId × Team)
  players : List (SocketId × Player)
  phase : Phase
  activeBonusTeamId : Option TeamId
  tossupLockedTeams : List TeamId
  buzz : Buzz
  timer : Timer
  tossupEndTimeout : Bool
  matchLog : MatchLog
deriving DecidableEq

/-! ### Association-list embedding of JS `Map` -/

/-- `Map.get`. -/
def alGet {α : Type} : List (String × α) → String → Option α
  | [], _ => none
  | (k', v) :: rest, k => if k' = k then some v else alGet rest k

/-- `Map.set`: overwrite the existing entry in place, else append. -/
def alSet {α : Type} : List (String × α) → String → α → List (String × α)
  | [], k, v => [(k, v)]
  | (k', v') :: rest, k, v =>
      if k' = k then (k, v) :: rest else (k', v') :: alSet rest k v

/-- `Map.delete`. -/
def alDelete {α : Type} (l : List (String × α)) (k : String) : List (String × α) :=
  l.filter (fun kv => kv.1 ≠ k)

/-- `Map.has`. -/
def alHas {α : Type} (l : List (String × α)) (k : String) : Bool :=
  (alGet l k).isSome

/-- `[...map.keys()]`. -/
def alKeys {α : Type} (l : List (String × α)) : List String :=
  l.map Prod.fst

/-- JS `Set.add`: append if absent. -/
def setAdd (l : List String) (x : String) : List String :=
  if l.contains x then l else l ++ [x]

/-! ### Timer helpers (lines 49-79) -/

/-- `computeTimerSnapshot` (lines 49-55): a pure read of the timer. -/
def computeTimerSnapshot (room : Room) (t : Int) : TimerSnapshot :=
  let tm := room.timer
  if !tm.running then
    { mode := tm.mode, running := false, remainingMs := tm.remainingMs, endsAtMs := 0 }
  else
    let remaining := max 0 (tm.endsAtMs - t)
    let running := decide (remaining > 0)
    { mode := tm.mode, running := running, remainingMs := remaining,
      endsAtMs := if running then tm.endsAtMs else 0 }

/-- `setTimer` (lines 57-67).  `Math.round(seconds*1000)` for whole-second
settings is `seconds * 1000`. -/
def setTimer (room : Room) (mode : TimerMode) (seconds : Int) (running : Bool)
    (t : Int) : Room :=
  let rem := seconds * 1000
  if running then
    { room with timer := { mode := mode, running := true, remainingMs := rem,
                           endsAtMs := t + rem } }
  else
    { room with timer := { mode := mode, running := false, remainingMs := rem,
                           endsAtMs := 0 } }

/-- `resetTimerFull` (lines 69-72). -/
def resetTimerFull (room : Room) (mode : TimerMode) (running : Bool) (t : Int) : Room :=
  let seconds :=
    if mode = TimerMode.tossup then room.settings.tossupSeconds
    else room.settings.bonusSeconds
  setTimer room mode seconds running t

/-- `stopTimer` (lines 74-79). -/
def stopTimer (room : Room) (t : Int) : Room :=
  if !room.timer.running then room
  else
    { room with timer := { room.timer with
        remainingMs := max 0 (room.timer.endsAtMs - t),
        running := false,
        endsAtMs := 0 } }

/-- `clearTossupEndTimeout` (lines 82-87): the stored handle is cleared. -/
def clearTossupEndTimeout (room : Room) : Room :=
  { room with tossupEndTimeout := false }

/-- The synchronous part of `scheduleTossupEnd` (lines 89-93): clear any
previous handle and store a new one.  The deferred callback body is
embedded separately as `tossupEndFire`. -/
def scheduleTossupEnd (room : Room) : Room :=
  { room with tossupEndTimeout := true }

/-! ### Match log helpers (lines 111-147) -/

/-- `startNewTossupRow` (lines 116-126); `ensureMatch` is a no-op because
`room.match` is always initialised at creation in this embedding. -/
def startNewTossupRow (room : Room) : Room :=
  let num := room.matchLog.tossupNumber + 1
  let rowTeams := room.teams.map (fun kv =>
    (kv.1, ({ p := 0, tu := 0, b := 0, score := kv.2.score } : RowTeam)))
  { room with matchLog :=
      { tossupNumber := num,
        rows := room.matchLog.rows ++ [{ num := num, teams := rowTeams }] } }

/-- `currentRow` (lines 128-132): the last row, if any. -/
def currentRow (room : Room) : Option Row :=
  room.matchLog.rows.getLast?

/-- Update the last element of a list, if any. -/
def updateLast {α : Type} (f : α → α) : List α → List α
  | [] => []
  | [r] => [f r]
  | r :: rest => r :: updateLast f rest

/-- `row.teams[teamId][field] += points`. -/
def bumpField (rt : RowTeam) : RowField → Int → RowTeam
  | .p, pts => { rt with p := rt.p + pts }
  | .tu, pts => { rt with tu := rt.tu + pts }
  | .b, pts => { rt with b := rt.b + pts }

/-- `addRowDelta` (lines 134-139). -/
def addRowDelta (room : Room) (teamId : TeamId) (field : RowField) (points : Int) :
    Room :=
  if room.matchLog.rows = [] then room
  else
    { room with matchLog := { room.matchLog with
        rows := updateLast (fun row =>
          match alGet row.teams teamId with
          | none => row
          | some rt => { row with teams := alSet row.teams teamId (bumpField rt field points) })
          room.matchLog.rows } }

/-- The loop body of `refreshRowScores`: write each current team score
into the row, for teams present in the row. -/
def refreshRowWith (teams : List (TeamId × Team)) (row : Row) : Row :=
  { row with teams := teams.foldl (fun acc kv =>
      match alGet acc kv.1 with
      | none => acc
      | some rt => alSet acc kv.1 ({ rt with score := kv.2.score })) row.teams }

/-- `refreshRowScores` (lines 141-147). -/
def refreshRowScores (room : Room) : Room :=
  if room.matchLog.rows = [] then room
  else
    { room with matchLog := { room.matchLog with
        rows := updateLast (refreshRowWith room.teams) room.matchLog.rows } }

/-! ### Buzz helpers (lines 149-156) -/

/-- `clearBuzz` (lines 150-152). -/
def clearBuzz (room : Room) : Room :=
  { room with buzz := Buzz.unlocked }

/-- `otherTeamId` (lines 154-156): the first team key different from `teamId`. -/
def otherTeamId (room : Room) (teamId : TeamId) : Option TeamId :=
  (alKeys room.teams).find? (fun id => id ≠ teamId)

/-- `room.phase.startsWith("bonus")`. -/
def isBonusPhase : Phase → Bool
  | .bonus_reading => true
  | .bonus_live => true
  | _ => false

/-! ### Socket handlers (lines 201-531)

Each room-targeted handler is embedded as a pure function from the room
(already resolved from the registry), the calling socket id, the payload
and the current time, to a `HandlerOut`: the resulting room, the
`error_msg` strings emitted to the calling socket, and whether
`broadcast(room)` was invoked. -/

structure HandlerOut where
  room : Room
  errs : List String
  didBroadcast : Bool
deriving DecidableEq

/-- JS `String.prototype.trim()` over the character list (kernel-reducible
embedding; the inputs of interest are ASCII). -/
def strTrim (s : String) : String :=
  String.mk (((s.data.dropWhile Char.isWhitespace).reverse.dropWhile
    Char.isWhitespace).reverse)

/-- JS `.slice(0, n)` on short strings: the first `n` characters. -/
def strTake (s : String) (n : Nat) : String :=
  String.mk (s.data.take n)

/-- JS `.toUpperCase()`. -/
def strUpper (s : String) : String :=
  String.mk (s.data.map Char.toUpper)

/-- JS `(String(s).trim() || dflt)` pattern with a fallback for falsy input. -/
def orDefault (s dflt : String) : String :=
  if s = "" then dflt else s

/-- `host_set_room_name` (lines 244-252).  `requireHost` inlined. -/
def host_set_room_name (room : Room) (sid : SocketId) (roomName : String) :
    HandlerOut :=
  if room.hostSocketId ≠ sid then ⟨room, ["Host only."], false⟩
  else
    let rn := strTake (strTrim roomName) 40
    if rn = "" then ⟨room, [], false⟩
    else ⟨{ room with roomName := rn }, [], true⟩

/-- `host_set_team_name` (lines 254-264). -/
def host_set_team_name (room : Room) (sid : SocketId) (teamId : TeamId)
    (name : String) : HandlerOut :=
  if room.hostSocketId ≠ sid then ⟨room, ["Host only."], false⟩
  else
    match alGet room.teams teamId with
    | none => ⟨room, [], false⟩
    | some tteam =>
      let nm := strTake (strTrim name) 24
      if nm = "" then ⟨room, [], false⟩
      else ⟨{ room with teams := alSet room.teams teamId ({ tteam with name := nm }) },
            [], true⟩

/-- `join_room` (lines 266-300).  The `socket.join(code)` subscription is
transport-layer state outside this model. -/
def join_room (room : Room) (sid : SocketId) (name : String)
    (teamId : Option TeamId) (spectate : Bool) : HandlerOut :=
  let nm := strTake (orDefault (strTrim (orDefault name "Player")) "Player") 24
  if spectate then
    let pl : Player :=
      { socketId := sid, name := nm, teamId := none, isHost := false,
        isSpectator := true }
    ⟨{ room with players := alSet room.players sid pl }, [], true⟩
  else
    match teamId with
    | none => ⟨room, ["Choose a team before joining."], false⟩
    | some tid =>
      if !alHas room.teams tid then ⟨room, ["Choose a team before joining."], false⟩
      else
        let pl : Player :=
          { socketId := sid, name := nm, teamId := some tid, isHost := false,
            isSpectator := false }
        ⟨{ room with players := alSet room.players sid pl }, [], true⟩

/-- `set_team` (line 303): the handler body is empty. -/
def set_team (room : Room) (_sid : SocketId) : HandlerOut :=
  ⟨room, [], false⟩

/-- `host_start_tossup_reading` (lines 306-325). -/
def host_start_tossup_reading (room : Room) (sid : SocketId) (t : Int) : HandlerOut :=
  if room.hostSocketId ≠ sid then ⟨room, ["Host only."], false⟩
  else if isBonusPhase room.phase then ⟨room, [], false⟩
  else
    let r := clearTossupEndTimeout room
    let r := { r with phase := Phase.tossup_reading, activeBonusTeamId := none,
                      tossupLockedTeams := [] }
    let r := clearBuzz r
    let r := resetTimerFull r TimerMode.tossup false t
    let r := startNewTossupRow r
    let r := refreshRowScores r
    ⟨r, [], true⟩

/-- `host_done_reading_tossup` (lines 327-339). -/
def host_done_reading_tossup (room : Room) (sid : SocketId) (t : Int) : HandlerOut :=
  if room.hostSocketId ≠ sid then ⟨room, ["Host only."], false⟩
  else if isBonusPhase room.phase then ⟨room, [], false⟩
  else
    let r := { room with phase := Phase.tossup_live }
    let r := clearBuzz r
    let r := resetTimerFull r TimerMode.tossup true t
    let r := scheduleTossupEnd r
    ⟨r, [], true⟩

/-- `buzz` (lines 342-371). -/
def buzz (room : Room) (sid : SocketId) (t : Int) : HandlerOut :=
  match alGet room.players sid with
  | none => ⟨room, [], false⟩
  | some p =>
    if p.isHost || p.isSpectator then ⟨room, [], false⟩
    else if room.phase ≠ Phase.tossup_reading ∧ room.phase ≠ Phase.tossup_live then
      ⟨room, [], false⟩
    else
      match p.teamId with
      | none => ⟨room, [], false⟩
      | some tid =>
        if room.tossupLockedTeams.contains tid then ⟨room, [], false⟩
        else if room.buzz.isLocked then ⟨room, [], false⟩
        else
          let r :=
            if room.phase = Phase.tossup_live then
              clearTossupEndTimeout (stopTimer room t)
            else room
          let info : BuzzInfo :=
            { winnerSocketId := sid, winnerName := p.name, winnerTeamId := tid,
              atMs := t, interruptChoice := none }
          ⟨{ r with buzz := Buzz.locked info }, [], true⟩

/-- `host_clear_buzz` (lines 373-384). -/
def host_clear_buzz (room : Room) (sid : SocketId) : HandlerOut :=
  if room.hostSocketId ≠ sid then ⟨room, ["Host only."], false⟩
  else
    let r := clearBuzz room
    let r :=
      if r.phase = Phase.tossup_live ∧ r.timer.running then scheduleTossupEnd r
      else r
    ⟨r, [], true⟩

/-- `host_set_interrupt_choice` (lines 386-394). -/
def host_set_interrupt_choice (room : Room) (sid : SocketId) (interrupt : Bool) :
    HandlerOut :=
  if room.hostSocketId ≠ sid then ⟨room, ["Host only."], false⟩
  else
    match room.buzz with
    | .unlocked => ⟨room, [], false⟩
    | .locked info =>
      ⟨{ room with buzz := Buzz.locked ({ info with interruptChoice := some interrupt }) },
        [], true⟩

/-- `host_mark_answer` (lines 396-460). -/
def host_mark_answer (room : Room) (sid : SocketId) (correct : Bool) (t : Int) :
    HandlerOut :=
  if room.hostSocketId ≠ sid then ⟨room, ["Host only."], false⟩
  else
    match room.buzz with
    | .unlocked => ⟨room, [], false⟩
    | .locked info =>
      let teamId := info.winnerTeamId
      match (if teamId = "" then none else alGet room.teams teamId) with
      | none => ⟨room, [], false⟩
      | some team =>
        match info.interruptChoice with
        | none => ⟨room, [], false⟩
        | some interrupt =>
          if correct then
            let r := { room with
              teams := alSet room.teams teamId ({ team with score := team.score + 4 }) }
            let r := addRowDelta r teamId RowField.tu 4
            let r := refreshRowScores r
            let r := clearTossupEndTimeout r
            let r := { r with phase := Phase.bonus_reading,
                              activeBonusTeamId := some teamId }
            let r := clearBuzz r
            let r := resetTimerFull r TimerMode.bonus false t
            ⟨r, [], true⟩
          else
            let r := { room with tossupLockedTeams := setAdd room.tossupLockedTeams teamId }
            let r := clearBuzz r
            if interrupt then
              let r :=
                match otherTeamId r teamId with
                | none => r
                | some otherId =>
                  match alGet r.teams otherId with
                  | none => r
                  | some other =>
                    let r2 := { r with
                      teams := alSet r.teams otherId ({ other with score := other.score + 4 }) }
                    let r3 := addRowDelta r2 otherId RowField.p 4
                    refreshRowScores r3
              let r := clearTossupEndTimeout r
              let r := { r with phase := Phase.tossup_reading }
              let r := resetTimerFull r TimerMode.tossup false t
              ⟨r, [], true⟩
            else
              let r := { r with phase := Phase.tossup_live }
              let r := resetTimerFull r TimerMode.tossup true t
              let r := scheduleTossupEnd r
              ⟨r, [], true⟩

/-- `host_done_reading_bonus` (lines 463-472). -/
def host_done_reading_bonus (room : Room) (sid : SocketId) (t : Int) : HandlerOut :=
  if room.hostSocketId ≠ sid then ⟨room, ["Host only."], false⟩
  else if room.phase ≠ Phase.bonus_reading ∧ room.phase ≠ Phase.bonus_live then
    ⟨room, [], false⟩
  else
    let r := { room with phase := Phase.bonus_live }
    let r := resetTimerFull r TimerMode.bonus true t
    ⟨r, [], true⟩

/-- `host_award_bonus` (lines 474-498).  `Number(points)` being NaN or
infinite is embedded as `none`. -/
def host_award_bonus (room : Room) (sid : SocketId) (points : Option Int) (t : Int) :
    HandlerOut :=
  if room.hostSocketId ≠ sid then ⟨room, ["Host only."], false⟩
  else if !isBonusPhase room.phase then ⟨room, [], false⟩
  else
    match room.activeBonusTeamId with
    | none => ⟨room, [], false⟩
    | some tid =>
    if tid = "" then ⟨room, [], false⟩
    else
    match alGet room.teams tid with
    | none => ⟨room, [], false⟩
    | some team =>
      match points with
      | none => ⟨room, [], false⟩
      | some pts =>
        if pts < 0 ∨ pts > 20 then ⟨room, [], false⟩
        else
          let r := { room with
            teams := alSet room.teams tid ({ team with score := team.score + pts }) }
          let r := addRowDelta r tid RowField.b pts
          let r := refreshRowScores r
          let r := { r with phase := Phase.lobby, activeBonusTeamId := none,
                            tossupLockedTeams := [] }
          let r := clearBuzz r
          let r := resetTimerFull r TimerMode.tossup false t
          ⟨r, [], true⟩

/-- `host_skip_bonus` (lines 500-513). -/
def host_skip_bonus (room : Room) (sid : SocketId) (t : Int) : HandlerOut :=
  if room.hostSocketId ≠ sid then ⟨room, ["Host only."], false⟩
  else if !isBonusPhase room.phase then ⟨room, [], false⟩
  else
    let r := { room with phase := Phase.lobby, activeBonusTeamId := none,
                         tossupLockedTeams := [] }
    let r := clearBuzz r
    let r := resetTimerFull r TimerMode.tossup false t
    ⟨r, [], true⟩

/-! ### Commands, per-room stepping and the registry -/

/-- The room-targeted client commands (each socket event, with its caller and
payload; the raw `code` field is handled at dispatch level). -/
inductive ClientOp
  | set_room_name (sid : SocketId) (roomName : String)
  | set_team_name (sid : SocketId) (teamId : TeamId) (name : String)
  | joinRoom (sid : SocketId) (name : String) (teamId : Option TeamId) (spectate : Bool)
  | setTeam (sid : SocketId)
  | start_tossup_reading (sid : SocketId)
  | done_reading_tossup (sid : SocketId)
  | buzzOp (sid : SocketId)
  | clear_buzz (sid : SocketId)
  | set_interrupt_choice (sid : SocketId) (interrupt : Bool)
  | mark_answer (sid : SocketId) (correct : Bool)
  | done_reading_bonus (sid : SocketId)
  | award_bonus (sid : SocketId) (points : Option Int)
  | skip_bonus (sid : SocketId)
deriving DecidableEq

/-- Apply a client command to a resolved room. -/
def handleCmd (room : Room) (c : ClientOp) (t : Int) : HandlerOut :=
  match c with
  | .set_room_name sid roomName => host_set_room_name room sid roomName
  | .set_team_name sid teamId name => host_set_team_name room sid teamId name
  | .joinRoom sid name teamId spectate => join_room room sid name teamId spectate
  | .setTeam sid => set_team room sid
  | .start_tossup_reading sid => host_start_tossup_reading room sid t
  | .done_reading_tossup sid => host_done_reading_tossup room sid t
  | .buzzOp sid => buzz room sid t
  | .clear_buzz sid => host_clear_buzz room sid
  | .set_interrupt_choice sid interrupt => host_set_interrupt_choice room sid interrupt
  | .mark_answer sid correct => host_mark_answer room sid correct t
  | .done_reading_bonus sid => host_done_reading_bonus room sid t
  | .award_bonus sid points => host_award_bonus room sid points t
  | .skip_bonus sid => host_skip_bonus room sid t

/-- The body of the deferred toss-up-end callback, applied to a single room
(lines 94-106 without the registry lookup): if the phase is still
`tossup_live`, the live remaining time is zero and no buzz is locked, close
the toss-up; otherwise do nothing. -/
def fireRoom (room : Room) (t : Int) : Room :=
  let remaining := max 0 (room.timer.endsAtMs - t)
  if room.phase = Phase.tossup_live ∧ remaining = 0 ∧ room.buzz.isLocked = false then
    let tmr := { room.timer with running := false, remainingMs := 0, endsAtMs := 0 }
    let r := { room with phase := Phase.tossup_closed, timer := tmr }
    clearBuzz r
  else room

/-- Every event that can touch a single room after creation: a client
command, a disconnect of one socket (lines 515-530 restricted to this room),
or a firing of the scheduled toss-up-end callback. -/
inductive Op
  | cmd (c : ClientOp)
  | disconnect (sid : SocketId)
  | fireEv
deriving DecidableEq

/-- One event applied to one room; `none` means the room was destroyed
(host disconnect, lines 522-525). -/
def stepRoom (room : Room) (op : Op) (t : Int) : Option Room :=
  match op with
  | .cmd c => some (handleCmd room c t).room
  | .disconnect sid =>
    if alHas room.players sid then
      if room.hostSocketId = sid then none
      else some { room with players := alDelete room.players sid }
    else some room
  | .fireEv => some (fireRoom room t)

/-- Run a sequence of timestamped events on a room. -/
def runOps (room : Room) : List (Op × Int) → Option Room
  | [] => some room
  | (op, t) :: rest =>
    match stepRoom room op t with
    | none => none
    | some r => runOps r rest

/-- The process-wide `rooms` map (line 24). -/
abbrev Registry := List (String × Room)

/-- `error_msg` / `state` emissions of one dispatched command:
strings sent to the calling socket only, strings sent to every member of a
room, and the codes of rooms to which a state broadcast was pushed. -/
structure Output where
  errsToCaller : List String
  errsToRoom : List String
  broadcasts : List String
deriving DecidableEq

/-- Registry-level dispatch of a client command: the `String(code ||
"").toUpperCase().trim()` normalisation and `requireRoom` (lines 34-38),
then the room handler.  `set_team` has no room lookup at all (line 303). -/
def dispatch (reg : Registry) (codeRaw : String) (c : ClientOp) (t : Int) :
    Registry × Output :=
  match c with
  | .setTeam _ => (reg, ⟨[], [], []⟩)
  | _ =>
    let code := strTrim (strUpper codeRaw)
    match alGet reg code with
    | none => (reg, ⟨["Room not found."], [], []⟩)
    | some room =>
      let out := handleCmd room c t
      (alSet reg code out.room,
       ⟨out.errs, [], if out.didBroadcast then [code] else []⟩)

/-- The scheduled toss-up-end callback at registry level (lines 93-107):
re-look the room up by its captured code; validate phase, remaining time
and buzz against the current state; only then close the toss-up (and
broadcast, reported as the boolean). -/
def tossupEndFire (reg : Registry) (code : String) (t : Int) : Registry × Bool :=
  match alGet reg code with
  | none => (reg, false)
  | some r =>
    let remaining := max 0 (r.timer.endsAtMs - t)
    if r.phase = Phase.tossup_live ∧ remaining = 0 ∧ r.buzz.isLocked = false then
      let tmr := { r.timer with running := false, remainingMs := 0, endsAtMs := 0 }
      let r2 := { r with phase := Phase.tossup_closed, timer := tmr }
      (alSet reg code (clearBuzz r2), true)
    else (reg, false)

/-! ### Room creation (lines 27-32 and 202-242) -/

/-- The code alphabet (line 28). -/
def codeAlphabet : List Char :=
  "ABCDEFGHJKLMNPQRSTUVWXYZ23456789".toList

/-- `genCode` (lines 27-32): six random draws from the 32-letter alphabet.
The random source `Math.floor(Math.random() * 32)` is the oracle `rand`,
reduced modulo 32. -/
def genCode (rand : Nat → Nat) : String :=
  String.mk ((List.range 6).map (fun i => codeAlphabet.getD (rand i % 32) 'A'))

/-- The team-construction loop (lines 225-228): `nanoid(6)` is the oracle
`teamIds`; `String.fromCharCode(65 + i)` is `Char.ofNat (65 + i)`. -/
def makeTeams (teamIds : Nat → TeamId) (count : Nat) : List (TeamId × Team) :=
  (List.range count).foldl
    (fun acc i => alSet acc (teamIds i)
      { id := teamIds i, name := "Team " ++ String.mk [Char.ofNat (65 + i)],
        score := 0 })
    []

/-- `numTeams` clamping (lines 206-207): `Number(numTeams)` being NaN or
infinite is `none`; otherwise `Math.min(8, Math.max(2, Math.round(n)))`
for an integral payload `n`. -/
def clampTeamCount (numTeams : Option Int) : Nat :=
  match numTeams with
  | none => 2
  | some n => (min 8 (max 2 n)).toNat

/-- The room object built by `create_room` (lines 202-236). -/
def buildRoom (sid : SocketId) (hostName roomName : String)
    (numTeams : Option Int) (code : String) (teamIds : Nat → TeamId) : Room :=
  let rn := orDefault (strTake (strTrim roomName) 40) ("Room " ++ code)
  let hostPl : Player :=
    { socketId := sid,
      name := strTake (orDefault (strTrim hostName) "Host") 24,
      teamId := none, isHost := true, isSpectator := false }
  { code := code,
    roomName := rn,
    hostSocketId := sid,
    settings := { tossupSeconds := 5, bonusSeconds := 20 },
    teams := makeTeams teamIds (clampTeamCount numTeams),
    players := alSet [] sid hostPl,
    phase := Phase.lobby,
    activeBonusTeamId := none,
    tossupLockedTeams := [],
    buzz := Buzz.unlocked,
    timer := { mode := TimerMode.tossup, running := false,
               remainingMs := 5 * 1000, endsAtMs := 0 },
    tossupEndTimeout := false,
    matchLog := { tossupNumber := 0, rows := [] } }

/-- `create_room` (lines 202-242): generate a code, build the room and
`rooms.set(code, room)` it — with no collision check on the generated
code. Returns the new registry and the assigned code. -/
def create_room (reg : Registry) (sid : SocketId) (hostName roomName : String)
    (numTeams : Option Int) (rand : Nat → Nat) (teamIds : Nat → TeamId) :
    Registry × String :=
  let code := genCode rand
  let room := buildRoom sid hostName roomName numTeams code teamIds
  (alSet reg code room, code)

/-! ### Basic association-list lemmas -/

theorem alGet_alSet_self {α : Type} (l : List (String × α)) (k : String) (v : α) :
    alGet (alSet l k v) k = some v := by
  induction l with
  | nil => simp [alGet, alSet]
  | cons kv rest ih =>
    by_cases h : kv.1 = k
    · simp [alSet, alGet, h]
    · simp [alSet, alGet, h, ih]

theorem alGet_alSet_ne {α : Type} (l : List (String × α)) (k k' : String) (v : α)
    (h : k' ≠ k) : alGet (alSet l k v) k' = alGet l k' := by
  have h2 : k ≠ k' := Ne.symm h
  induction l with
  | nil => simp [alGet, alSet, h2]
  | cons kv rest ih =>
    obtain ⟨k1, v1⟩ := kv
    by_cases hk : k1 = k
    · subst hk
      simp [alSet, alGet, h2]
    · simp [alSet, alGet, hk, ih]

theorem alSet_eq_self {α : Type} (l : List (String × α)) (k : String) (v : α)
    (h : alGet l k = some v) : alSet l k v = l := by
  induction l with
  | nil => simp [alGet] at h
  | cons kv rest ih =>
    obtain ⟨k1, v1⟩ := kv
    by_cases hk : k1 = k
    · subst hk
      simp [alGet] at h
      simp [alSet, h]
    · simp [alGet, hk] at h
      simp [alSet, hk, ih h]

theorem alGet_eq_none_of_notMem {α : Type} (l : List (String × α)) (k : String)
    (h : k ∉ alKeys l) : alGet l k = none := by
  induction l with
  | nil => simp [alGet]
  | cons kv rest ih =>
    obtain ⟨k1, v1⟩ := kv
    simp [alKeys] at h
    have hne : k1 ≠ k := fun hh => h.1 hh.symm
    simp [alGet, hne]
    exact ih (by simp [alKeys]; intro x; exact h.2 x)

theorem alSet_append_of_notMem {α : Type} (l : List (String × α)) (k : String) (v : α)
    (h : k ∉ alKeys l) : alSet l k v = l ++ [(k, v)] := by
  induction l with
  | nil => simp [alSet]
  | cons kv rest ih =>
    obtain ⟨k1, v1⟩ := kv
    simp [alKeys] at h
    have hne : k1 ≠ k := fun hh => h.1 hh.symm
    simp [alSet, hne]
    exact ih (by simp [alKeys]; intro x; exact h.2 x)

/-- `setAdd` keeps existing members. -/
theorem mem_setAdd_of_mem (l : List String) (x y : String) (h : y ∈ l) :
    y ∈ setAdd l x := by
  unfold setAdd
  split
  · exact h
  · exact List.mem_append_left _ h

/-! ### Claim theorems -/

/-- C10: when the internal timer is marked running but its absolute deadline
has passed (`endsAtMs ≤ now`), the public snapshot reports `running = false`,
`remainingMs = 0`, `endsAtMs = 0` (regardless of the phase, which the
snapshot never reads); and the snapshot never reports a negative remaining
time, either while running or — provided the stored paused value is
non-negative — while paused.  `computeTimerSnapshot` is a pure function of
the room and the clock, so it cannot mutate the timer state. -/
theorem computeTimerSnapshot_expired (room : Room) (t : Int) :
    (room.timer.running = true → room.timer.endsAtMs ≤ t →
      computeTimerSnapshot room t =
        { mode := room.timer.mode, running := false, remainingMs := 0, endsAtMs := 0 })
    ∧ (room.timer.running = true → 0 ≤ (computeTimerSnapshot room t).remainingMs)
    ∧ (0 ≤ room.timer.remainingMs → 0 ≤ (computeTimerSnapshot room t).remainingMs) := by
  refine ⟨?_, ?_, ?_⟩
  · intro hrun hle
    have hmax : max (0 : Int) (room.timer.endsAtMs - t) = 0 := by omega
    simp [computeTimerSnapshot, hrun, hmax]
  · intro hrun
    simp [computeTimerSnapshot, hrun]
  · intro hnon
    unfold computeTimerSnapshot
    by_cases hrun : room.timer.running
    · simp [hrun]
    · simp [hrun, hnon]

/-- Witness for C10 at a concrete expired running timer. -/
theorem computeTimerSnapshot_expired_witness :
    computeTimerSnapshot
      { code := "AAAAAA", roomName := "R", hostSocketId := "h",
        settings := { tossupSeconds := 5, bonusSeconds := 20 },
        teams := [], players := [], phase := Phase.tossup_live,
        activeBonusTeamId := none, tossupLockedTeams := [],
        buzz := Buzz.unlocked,
        timer := { mode := TimerMode.tossup, running := true,
                   remainingMs := 5000, endsAtMs := 6000 },
        tossupEndTimeout := true,
        matchLog := { tossupNumber := 0, rows := [] } } 7000
      = { mode := TimerMode.tossup, running := false, remainingMs := 0, endsAtMs := 0 } :=
  (computeTimerSnapshot_expired _ 7000).1 rfl (by decide)

/-- C5: with a locked buzz, `host_clear_buzz` clears the buzz, leaves the
phase (and timer and teams) unchanged, and reschedules the toss-up
end-callback exactly when the phase is `tossup_live` and the timer is
still running. -/
theorem host_clear_buzz_spec (room : Room) (sid : SocketId) (info : BuzzInfo)
    (hhost : room.hostSocketId = sid) (hlock : room.buzz = Buzz.locked info) :
    (host_clear_buzz room sid).room.buzz = Buzz.unlocked
    ∧ (host_clear_buzz room sid).room.phase = room.phase
    ∧ (host_clear_buzz room sid).room.timer = room.timer
    ∧ (host_clear_buzz room sid).room.teams = room.teams
    ∧ (room.phase = Phase.tossup_live ∧ room.timer.running = true →
        (host_clear_buzz room sid).room.tossupEndTimeout = true)
    ∧ (¬(room.phase = Phase.tossup_live ∧ room.timer.running = true) →
        (host_clear_buzz room sid).room.tossupEndTimeout = room.tossupEndTimeout) := by
  have h0 : ¬ room.hostSocketId ≠ sid := by simp [hhost]
  unfold host_clear_buzz
  simp only [h0, if_false, clearBuzz, scheduleTossupEnd]
  constructor
  · split <;> rfl
  constructor
  · split <;> rfl
  constructor
  · split <;> rfl
  constructor
  · split <;> rfl
  constructor
  · intro hcond
    split
    · rfl
    · next hc => exact absurd ⟨hcond.1, by simp [hcond.2]⟩ hc
  · intro hcond
    split
    · next hc => exact absurd ⟨hc.1, by simpa using hc.2⟩ hcond
    · rfl

/-- Witness for C5: a live-phase room with a locked buzz and a stopped
timer; the buzz is cleared and no end-callback is rescheduled. -/
theorem host_clear_buzz_spec_witness :
    ((host_clear_buzz
      { code := "AAAAAA", roomName := "R", hostSocketId := "h",
        settings := { tossupSeconds := 5, bonusSeconds := 20 },
        teams := [], players := [], phase := Phase.tossup_live,
        activeBonusTeamId := none, tossupLockedTeams := [],
        buzz := Buzz.locked { winnerSocketId := "p", winnerName := "P",
                              winnerTeamId := "T0", atMs := 3, interruptChoice := none },
        timer := { mode := TimerMode.tossup, running := false,
                   remainingMs := 1200, endsAtMs := 0 },
        tossupEndTimeout := false,
        matchLog := { tossupNumber := 0, rows := [] } } "h").room.buzz = Buzz.unlocked) :=
  (host_clear_buzz_spec _ "h" _ rfl rfl).1

/-- The closed-toss-up room written by a successful firing (lines 100-104). -/
def closedOf (r : Room) : Room :=
  let tmr := { r.timer with running := false, remainingMs := (0 : Int), endsAtMs := (0 : Int) }
  clearBuzz { r with phase := Phase.tossup_closed, timer := tmr }

/-- C1: on firing, the toss-up end-callback re-validates against the current
registry state: it closes the toss-up (phase `tossup_closed`, timer stopped
at zero, buzz cleared, with a broadcast) exactly when the room still exists,
the phase is still `tossup_live`, the live remaining time is zero and the
buzz is not locked; in every other situation — in particular whenever a
buzz has locked in the interim — it changes nothing and broadcasts
nothing. -/
theorem tossupEndFire_revalidates (reg : Registry) (code : String) (t : Int) :
    (∀ r, alGet reg code = some r →
        r.phase = Phase.tossup_live → max 0 (r.timer.endsAtMs - t) = 0 →
        r.buzz.isLocked = false →
        tossupEndFire reg code t = (alSet reg code (closedOf r), true))
    ∧ (∀ r, (closedOf r).phase = Phase.tossup_closed
        ∧ (closedOf r).timer.running = false
        ∧ (closedOf r).timer.remainingMs = 0
        ∧ (closedOf r).timer.endsAtMs = 0
        ∧ (closedOf r).buzz = Buzz.unlocked)
    ∧ (alGet reg code = none → tossupEndFire reg code t = (reg, false))
    ∧ (∀ r, alGet reg code = some r →
        (r.phase ≠ Phase.tossup_live ∨ max 0 (r.timer.endsAtMs - t) ≠ 0 ∨
          r.buzz.isLocked = true) →
        tossupEndFire reg code t = (reg, false))
    ∧ (∀ r, alGet reg code = some r → r.buzz.isLocked = true →
        tossupEndFire reg code t = (reg, false)) := by
  refine ⟨?_, ?_, ?_, ?_, ?_⟩
  · intro r hget hphase hrem hbuzz
    unfold tossupEndFire
    rw [hget]
    simp only [hphase, hrem, hbuzz]
    simp [closedOf, clearBuzz]
  · intro r
    simp [closedOf, clearBuzz]
  · intro hget
    unfold tossupEndFire
    rw [hget]
  · intro r hget hfail
    unfold tossupEndFire
    rw [hget]
    simp only
    split
    · next hcond =>
      rcases hfail with h | h | h
      · exact absurd hcond.1 h
      · exact absurd hcond.2.1 h
      · rw [hcond.2.2] at h
        exact absurd h (by simp)
    · rfl
  · intro r hget hbuzz
    unfold tossupEndFire
    rw [hget]
    simp only
    split
    · next hcond =>
      rw [hcond.2.2] at hbuzz
      exact absurd hbuzz (by simp)
    · rfl

/-- Witness for C1: a one-room registry whose buzz locked before the
deadline fired; the firing changes nothing. -/
theorem tossupEndFire_revalidates_witness :
    (tossupEndFire
      [("AAAAAA",
        { code := "AAAAAA", roomName := "R", hostSocketId := "h",
          settings := { tossupSeconds := 5, bonusSeconds := 20 },
          teams := [], players := [], phase := Phase.tossup_live,
          activeBonusTeamId := none, tossupLockedTeams := [],
          buzz := Buzz.locked { winnerSocketId := "p", winnerName := "P",
                                winnerTeamId := "T0", atMs := 3,
                                interruptChoice := none },
          timer := { mode := TimerMode.tossup, running := false,
                     remainingMs := 1200, endsAtMs := 0 },
          tossupEndTimeout := false,
          matchLog := { tossupNumber := 0, rows := [] } })] "AAAAAA" 9000)
    = ([("AAAAAA",
        { code := "AAAAAA", roomName := "R", hostSocketId := "h",
          settings := { tossupSeconds := 5, bonusSeconds := 20 },
          teams := [], players := [], phase := Phase.tossup_live,
          activeBonusTeamId := none, tossupLockedTeams := [],
          buzz := Buzz.locked { winnerSocketId := "p", winnerName := "P",
                                winnerTeamId := "T0", atMs := 3,
                                interruptChoice := none },
          timer := { mode := TimerMode.tossup, running := false,
                     remainingMs := 1200, endsAtMs := 0 },
          tossupEndTimeout := false,
          matchLog := { tossupNumber := 0, rows := [] } })], false) :=
  (tossupEndFire_revalidates _ "AAAAAA" 9000).2.2.2.2 _ rfl rfl

/-- The team value stored for index `i` at creation. -/
def mkTeam (teamIds : Nat → TeamId) (i : Nat) : Team :=
  { id := teamIds i, name := "Team " ++ String.mk [Char.ofNat (65 + i)], score := 0 }

theorem makeTeams_eq_map (teamIds : Nat → TeamId) (count : Nat)
    (hinj : ∀ i j, i < count → j < count → teamIds i = teamIds j → i = j) :
    makeTeams teamIds count
      = (List.range count).map (fun i => (teamIds i, mkTeam teamIds i)) := by
  induction count with
  | zero => simp [makeTeams]
  | succ n ih =>
    have hinj' : ∀ i j, i < n → j < n → teamIds i = teamIds j → i = j := by
      intro i j hi hj
      exact hinj i j (Nat.lt_succ_of_lt hi) (Nat.lt_succ_of_lt hj)
    have hstep : makeTeams teamIds (n + 1)
        = alSet (makeTeams teamIds n) (teamIds n) (mkTeam teamIds n) := by
      unfold makeTeams
      rw [List.range_succ, List.foldl_append]
      rfl
    have hnotin : teamIds n ∉ alKeys (makeTeams teamIds n) := by
      rw [ih hinj']
      intro hmem
      simp only [alKeys, List.map_map] at hmem
      rcases List.mem_map.mp hmem with ⟨i, hi, hEq⟩
      have hi' : i < n := List.mem_range.mp hi
      have : i = n := hinj i n (Nat.lt_succ_of_lt hi') (Nat.lt_succ_self n) hEq
      omega
    rw [hstep, alSet_append_of_notMem _ _ _ hnotin, ih hinj', List.range_succ,
      List.map_append]
    rfl

/-- C7: `create_room` stores, under the generated code, a room with exactly
`clamp(n, 2, 8)` teams (2 when the team count is not a finite number),
named sequentially "Team A", "Team B", ..., each with score 0; the room
starts in phase `lobby` with an unlocked buzz, an empty lockout set, an
empty ledger and a paused toss-up timer holding 5000 ms. -/
theorem create_room_spec (reg : Registry) (sid : SocketId)
    (hostName roomName : String) (numTeams : Option Int)
    (rand : Nat → Nat) (teamIds : Nat → TeamId)
    (hinj : ∀ i j, i < clampTeamCount numTeams → j < clampTeamCount numTeams →
      teamIds i = teamIds j → i = j) :
    ((create_room reg sid hostName roomName numTeams rand teamIds).1
      = alSet reg (genCode rand)
          (buildRoom sid hostName roomName numTeams (genCode rand) teamIds))
    ∧ (buildRoom sid hostName roomName numTeams (genCode rand) teamIds).teams
        = (List.range (clampTeamCount numTeams)).map
            (fun i => (teamIds i, mkTeam teamIds i))
    ∧ (buildRoom sid hostName roomName numTeams (genCode rand) teamIds).teams.length
        = clampTeamCount numTeams
    ∧ (∀ i, mkTeam teamIds i
        = { id := teamIds i, name := "Team " ++ String.mk [Char.ofNat (65 + i)],
            score := 0 })
    ∧ (numTeams = none → clampTeamCount numTeams = 2)
    ∧ (∀ n, numTeams = some n → clampTeamCount numTeams = (min 8 (max 2 n)).toNat)
    ∧ (buildRoom sid hostName roomName numTeams (genCode rand) teamIds).phase
        = Phase.lobby
    ∧ (buildRoom sid hostName roomName numTeams (genCode rand) teamIds).buzz
        = Buzz.unlocked
    ∧ (buildRoom sid hostName roomName numTeams (genCode rand) teamIds).tossupLockedTeams
        = []
    ∧ (buildRoom sid hostName roomName numTeams (genCode rand) teamIds).matchLog
        = { tossupNumber := 0, rows := [] }
    ∧ (buildRoom sid hostName roomName numTeams (genCode rand) teamIds).timer
        = { mode := TimerMode.tossup, running := false, remainingMs := 5000,
            endsAtMs := 0 } := by
  have hteams : (buildRoom sid hostName roomName numTeams (genCode rand) teamIds).teams
      = (List.range (clampTeamCount numTeams)).map
          (fun i => (teamIds i, mkTeam teamIds i)) := by
    show makeTeams teamIds (clampTeamCount numTeams) = _
    exact makeTeams_eq_map teamIds _ hinj
  refine ⟨rfl, hteams, ?_, fun i => rfl, fun h => by subst h; rfl,
    fun n h => by subst h; rfl, rfl, rfl, rfl, rfl, ?_⟩
  · rw [hteams]
    simp
  · show ({ mode := TimerMode.tossup, running := false, remainingMs := 5 * 1000,
            endsAtMs := 0 } : Timer) = _
    norm_num

/-- Witness for C7 at a concrete creation with three teams. -/
theorem create_room_spec_witness :
    ((create_room [] "h" "Harry" "Demo" (some 3) (fun _ => 0)
        (fun i => "T" ++ toString i)).1
      = alSet [] (genCode (fun _ => 0))
          (buildRoom "h" "Harry" "Demo" (some 3) (genCode (fun _ => 0))
            (fun i => "T" ++ toString i)))
    ∧ (buildRoom "h" "Harry" "Demo" (some 3) (genCode (fun _ => 0))
        (fun i => "T" ++ toString i)).teams.length = clampTeamCount (some 3) := by
  have hinj : ∀ i j, i < clampTeamCount (some 3) → j < clampTeamCount (some 3) →
      ("T" ++ toString i : String) = "T" ++ toString j → i = j := by
    intro i j hi hj hEq
    have hi3 : i < 3 := hi
    have hj3 : j < 3 := hj
    interval_cases i <;> interval_cases j <;>
      first
      | rfl
      | exact absurd hEq (by decide)
  have h := create_room_spec [] "h" "Harry" "Demo" (some 3) (fun _ => 0)
    (fun i => "T" ++ toString i) hinj
  exact ⟨h.1, h.2.2.1⟩

/-- Every handler that skips the broadcast also leaves the room untouched:
each rejection branch returns before any mutation. -/
theorem handleCmd_no_broadcast_eq (room : Room) (c : ClientOp) (t : Int)
    (h : (handleCmd room c t).didBroadcast = false) :
    (handleCmd room c t).room = room := by
  cases c <;>
    simp only [handleCmd, host_set_room_name, host_set_team_name, join_room, set_team,
      host_start_tossup_reading, host_done_reading_tossup, buzz, host_clear_buzz,
      host_set_interrupt_choice, host_mark_answer, host_done_reading_bonus,
      host_award_bonus, host_skip_bonus] at h ⊢ <;>
    (repeat' split at h) <;> simp_all

/-- C6 (amended): a dispatched client command never emits a room-wide
error notice (errors go only to the originating connection), and whenever
no state broadcast is pushed — in particular on every rejection — the
registry, and hence every room's state, is completely unmodified.
(The original claim additionally asserted that every rejection emits an
error notice; a buzz conflict, for one, is silently dropped.) -/
theorem dispatch_rejection_no_mutation (reg : Registry) (codeRaw : String)
    (c : ClientOp) (t : Int) :
    (dispatch reg codeRaw c t).2.errsToRoom = []
    ∧ ((dispatch reg codeRaw c t).2.broadcasts = [] →
        (dispatch reg codeRaw c t).1 = reg) := by
  have main : ∀ (hne : ∀ sid, c ≠ ClientOp.setTeam sid),
      (dispatch reg codeRaw c t).2.errsToRoom = []
      ∧ ((dispatch reg codeRaw c t).2.broadcasts = [] →
          (dispatch reg codeRaw c t).1 = reg) := by
    intro hne
    have hd : dispatch reg codeRaw c t =
        (match alGet reg (strTrim (strUpper codeRaw)) with
         | none => (reg, ⟨["Room not found."], [], []⟩)
         | some room =>
           let out := handleCmd room c t
           (alSet reg (strTrim (strUpper codeRaw)) out.room,
            ⟨out.errs, [], if out.didBroadcast then [strTrim (strUpper codeRaw)] else []⟩)) := by
      unfold dispatch
      cases c <;> first
        | rfl
        | exact absurd rfl (hne _)
    rw [hd]
    cases hget : alGet reg (strTrim (strUpper codeRaw)) with
    | none => exact ⟨rfl, fun _ => rfl⟩
    | some room =>
      dsimp only
      refine ⟨rfl, ?_⟩
      intro hb
      have hnb : (handleCmd room c t).didBroadcast = false := by
        cases hbc : (handleCmd room c t).didBroadcast with
        | false => rfl
        | true =>
          rw [hbc] at hb
          simp at hb
      have heq := handleCmd_no_broadcast_eq room c t hnb
      rw [heq]
      exact alSet_eq_self _ _ _ hget
  by_cases hst : ∃ sid, c = ClientOp.setTeam sid
  · rcases hst with ⟨sid, rfl⟩
    exact ⟨rfl, fun _ => rfl⟩
  · push_neg at hst
    exact main hst

/-- Witness for C6 (amended) at a concrete rejected command: a buzz into an
unknown room code. -/
theorem dispatch_rejection_no_mutation_witness :
    (dispatch [] "NOPE" (ClientOp.buzzOp "pb") 100).2.errsToRoom = []
    ∧ (dispatch [] "NOPE" (ClientOp.buzzOp "pb") 100).1 = ([] : Registry) := by
  have h := dispatch_rejection_no_mutation [] "NOPE" (ClientOp.buzzOp "pb") 100
  exact ⟨h.1, h.2 (by decide)⟩

/-- A room with a buzz already locked and a second would-be buzzer. -/
def c6room : Room :=
  { code := "AAAAAA", roomName := "R", hostSocketId := "h",
    settings := { tossupSeconds := 5, bonusSeconds := 20 },
    teams := [],
    players := [("h", { socketId := "h", name := "Host", teamId := none,
                        isHost := true, isSpectator := false }),
               ("pb", { socketId := "pb", name := "Bob", teamId := some "T1",
                        isHost := false, isSpectator := false })],
    phase := Phase.tossup_live,
    activeBonusTeamId := none,
    tossupLockedTeams := [],
    buzz := Buzz.locked { winnerSocketId := "pa", winnerName := "Alice",
                          winnerTeamId := "T0", atMs := 50, interruptChoice := none },
    timer := { mode := TimerMode.tossup, running := false, remainingMs := 1200,
               endsAtMs := 0 },
    tossupEndTimeout := false,
    matchLog := { tossupNumber := 0, rows := [] } }

/-- Counterexample to C6 as stated: a buzz conflict (buzz already locked) is
rejected with NO error notice to the originating connection — the command is
silently dropped (no mutation and no broadcast, but also no `error_msg`). -/
theorem dispatch_buzz_conflict_silent :
    dispatch [("AAAAAA", c6room)] "AAAAAA" (ClientOp.buzzOp "pb") 100
      = ([("AAAAAA", c6room)],
         { errsToCaller := [], errsToRoom := [], broadcasts := [] }) := by
  rfl

/-! ### Ledger-update lemmas -/

theorem updateLast_concat {α : Type} (f : α → α) (l : List α) (a : α) :
    updateLast f (l ++ [a]) = l ++ [f a] := by
  induction l with
  | nil => rfl
  | cons x xs ih =>
    cases xs with
    | nil => rfl
    | cons y ys =>
      show x :: updateLast f ((y :: ys) ++ [a]) = _
      rw [ih]
      rfl

theorem alKeys_alSet_of_get {α : Type} (l : List (String × α)) (k : String)
    (v0 v : α) (h : alGet l k = some v0) : alKeys (alSet l k v) = alKeys l := by
  induction l with
  | nil => simp [alGet] at h
  | cons kv rest ih =>
    obtain ⟨k1, v1⟩ := kv
    by_cases hk : k1 = k
    · subst hk
      simp [alSet, alKeys]
    · simp [alGet, hk] at h
      have hih := ih h
      simp [alKeys] at hih
      simp [alSet, alKeys, hk, hih]

/-- The loop body of `refreshRowScores`, as a function. -/
def refreshStep (acc : List (TeamId × RowTeam)) (kv : TeamId × Team) :
    List (TeamId × RowTeam) :=
  match alGet acc kv.1 with
  | none => acc
  | some rt => alSet acc kv.1 { rt with score := kv.2.score }

theorem refreshRowWith_eq_foldl (teams : List (TeamId × Team)) (row : Row) :
    (refreshRowWith teams row).teams = teams.foldl refreshStep row.teams := by
  rfl

theorem refreshFold_notin (teams : List (TeamId × Team))
    (acc : List (TeamId × RowTeam)) (oid : TeamId) (h : oid ∉ alKeys teams) :
    alGet (teams.foldl refreshStep acc) oid = alGet acc oid := by
  induction teams generalizing acc with
  | nil => rfl
  | cons kv rest ih =>
    obtain ⟨k1, v1⟩ := kv
    simp [alKeys] at h
    have hne : oid ≠ k1 := h.1
    have hrest : oid ∉ alKeys rest := by
      simp [alKeys]
      intro x
      exact h.2 x
    rw [List.foldl_cons, ih _ hrest]
    unfold refreshStep
    cases halget : alGet acc k1 with
    | none => rfl
    | some rt => exact alGet_alSet_ne _ _ _ _ hne

theorem refreshFold_mem (teams : List (TeamId × Team))
    (acc : List (TeamId × RowTeam)) (oid : TeamId) (tm : Team) (rt : RowTeam)
    (hnd : (alKeys teams).Nodup) (hteam : alGet teams oid = some tm)
    (hacc : alGet acc oid = some rt) :
    alGet (teams.foldl refreshStep acc) oid = some { rt with score := tm.score } := by
  induction teams generalizing acc rt with
  | nil => simp [alGet] at hteam
  | cons kv rest ih =>
    obtain ⟨k1, v1⟩ := kv
    by_cases hk : k1 = oid
    · subst hk
      simp [alGet] at hteam
      subst hteam
      have hstep : refreshStep acc (k1, v1) = alSet acc k1 { rt with score := v1.score } := by
        unfold refreshStep
        rw [hacc]
      have hnotin : k1 ∉ alKeys rest := by
        simp [alKeys] at hnd ⊢
        intro x
        exact hnd.1 x
      rw [List.foldl_cons, hstep, refreshFold_notin rest _ _ hnotin]
      exact alGet_alSet_self _ _ _
    · have hne : oid ≠ k1 := fun hh => hk hh.symm
      simp [alGet, hk] at hteam
      have hnd' : (alKeys rest).Nodup := by
        simp [alKeys] at hnd ⊢
        exact hnd.2
      rw [List.foldl_cons]
      have hacc' : alGet (refreshStep acc (k1, v1)) oid = some rt := by
        unfold refreshStep
        cases halget : alGet acc k1 with
        | none => exact hacc
        | some rt1 => rw [alGet_alSet_ne _ _ _ _ hne]; exact hacc
      exact ih _ _ hnd' hteam hacc'

/-! ### Field-preservation helpers for the scoring path -/

theorem addRowDelta_teams (room : Room) (tid : TeamId) (f : RowField) (pts : Int) :
    (addRowDelta room tid f pts).teams = room.teams := by
  unfold addRowDelta
  split <;> rfl

theorem refreshRowScores_teams (room : Room) :
    (refreshRowScores room).teams = room.teams := by
  unfold refreshRowScores
  split <;> rfl

theorem addRowDelta_settings (room : Room) (tid : TeamId) (f : RowField) (pts : Int) :
    (addRowDelta room tid f pts).settings = room.settings := by
  unfold addRowDelta
  split <;> rfl

theorem refreshRowScores_settings (room : Room) :
    (refreshRowScores room).settings = room.settings := by
  unfold refreshRowScores
  split <;> rfl

theorem addRowDelta_buzz (room : Room) (tid : TeamId) (f : RowField) (pts : Int) :
    (addRowDelta room tid f pts).buzz = room.buzz := by
  unfold addRowDelta
  split <;> rfl

theorem refreshRowScores_buzz (room : Room) :
    (refreshRowScores room).buzz = room.buzz := by
  unfold refreshRowScores
  split <;> rfl

theorem addRowDelta_locked (room : Room) (tid : TeamId) (f : RowField) (pts : Int) :
    (addRowDelta room tid f pts).tossupLockedTeams = room.tossupLockedTeams := by
  unfold addRowDelta
  split <;> rfl

theorem refreshRowScores_locked (room : Room) :
    (refreshRowScores room).tossupLockedTeams = room.tossupLockedTeams := by
  unfold refreshRowScores
  split <;> rfl

theorem addRowDelta_rows (room : Room) (tid : TeamId) (f : RowField) (pts : Int)
    (init : List Row) (row : Row) (rt : RowTeam)
    (hrows : room.matchLog.rows = init ++ [row])
    (hrt : alGet row.teams tid = some rt) :
    (addRowDelta room tid f pts).matchLog.rows
      = init ++ [{ row with teams := alSet row.teams tid (bumpField rt f pts) }] := by
  unfold addRowDelta
  rw [hrows]
  have hne : init ++ [row] ≠ ([] : List Row) := by simp
  rw [if_neg hne]
  show updateLast _ (init ++ [row]) = _
  rw [updateLast_concat]
  rw [hrt]

theorem refreshRowScores_rows (room : Room) (init : List Row) (row : Row)
    (hrows : room.matchLog.rows = init ++ [row]) :
    (refreshRowScores room).matchLog.rows
      = init ++ [refreshRowWith room.teams row] := by
  unfold refreshRowScores
  rw [hrows]
  have hne : init ++ [row] ≠ ([] : List Row) := by simp
  rw [if_neg hne]
  show updateLast _ (init ++ [row]) = _
  rw [updateLast_concat]

theorem setTimer_not_running (room : Room) (mode : TimerMode) (seconds t : Int) :
    setTimer room mode seconds false t
      = { room with timer := ({ mode := mode, running := false, remainingMs := seconds * 1000, endsAtMs := 0 } : Timer) } := by
  simp [setTimer]

theorem setTimer_running (room : Room) (mode : TimerMode) (seconds t : Int) :
    setTimer room mode seconds true t
      = { room with timer := ({ mode := mode, running := true, remainingMs := seconds * 1000, endsAtMs := t + seconds * 1000 } : Timer) } := by
  simp [setTimer]

theorem resetTimerFull_bonus (room : Room) (running : Bool) (t : Int) :
    resetTimerFull room TimerMode.bonus running t
      = setTimer room TimerMode.bonus room.settings.bonusSeconds running t := by
  simp [resetTimerFull]

theorem resetTimerFull_tossup (room : Room) (running : Bool) (t : Int) :
    resetTimerFull room TimerMode.tossup running t
      = setTimer room TimerMode.tossup room.settings.tossupSeconds running t := by
  simp [resetTimerFull]

/-- C4: with a locked buzz whose interrupt choice is set, marking the answer
correct adds 4 to the buzzing team's score, records it as a `tu` delta in
the current ledger row with the row's running score refreshed, cancels any
pending end-callback, clears the buzz, and enters `bonus_reading` with the
buzzing team active and a paused bonus timer. -/
theorem host_mark_answer_correct_spec (room : Room) (sid : SocketId)
    (info : BuzzInfo) (b : Bool) (team : Team) (init : List Row) (row : Row)
    (rt : RowTeam) (t : Int)
    (hhost : room.hostSocketId = sid)
    (hbuzz : room.buzz = Buzz.locked info)
    (hchoice : info.interruptChoice = some b)
    (hne : info.winnerTeamId ≠ "")
    (hteam : alGet room.teams info.winnerTeamId = some team)
    (hnd : (alKeys room.teams).Nodup)
    (hrows : room.matchLog.rows = init ++ [row])
    (hrt : alGet row.teams info.winnerTeamId = some rt) :
    alGet (host_mark_answer room sid true t).room.teams info.winnerTeamId
        = some { team with score := team.score + 4 }
    ∧ (∃ row2, (host_mark_answer room sid true t).room.matchLog.rows = init ++ [row2]
        ∧ alGet row2.teams info.winnerTeamId
            = some { rt with tu := rt.tu + 4, score := team.score + 4 })
    ∧ (host_mark_answer room sid true t).room.tossupEndTimeout = false
    ∧ (host_mark_answer room sid true t).room.buzz = Buzz.unlocked
    ∧ (host_mark_answer room sid true t).room.phase = Phase.bonus_reading
    ∧ (host_mark_answer room sid true t).room.activeBonusTeamId = some info.winnerTeamId
    ∧ (host_mark_answer room sid true t).room.timer
        = { mode := TimerMode.bonus, running := false,
            remainingMs := room.settings.bonusSeconds * 1000, endsAtMs := 0 } := by
  have h0 : ¬ room.hostSocketId ≠ sid := by simp [hhost]
  set tid := info.winnerTeamId with htid
  set team2 : Team := { team with score := team.score + 4 } with hteam2
  set r0 : Room := { room with teams := alSet room.teams tid team2 } with hr0
  set r1 : Room := addRowDelta r0 tid RowField.tu 4 with hr1
  set r2 : Room := refreshRowScores r1 with hr2
  set r4 : Room := { (clearTossupEndTimeout r2) with phase := Phase.bonus_reading, activeBonusTeamId := some tid } with hr4
  have hred : host_mark_answer room sid true t
      = ⟨resetTimerFull (clearBuzz r4) TimerMode.bonus false t, [], true⟩ := by
    simp only [host_mark_answer, if_neg h0, hbuzz, hne, ite_false, if_false, hteam,
      hchoice, ite_true, if_true]
    rw [← hbuzz]
  rw [hred]
  have hr0teams : r0.teams = alSet room.teams tid team2 := rfl
  have hr2teams : r2.teams = alSet room.teams tid team2 := by
    rw [hr2, refreshRowScores_teams, hr1, addRowDelta_teams, hr0teams]
  have hr0rows : r0.matchLog.rows = init ++ [row] := hrows
  have hr1rows : r1.matchLog.rows
      = init ++ [{ row with teams := alSet row.teams tid (bumpField rt RowField.tu 4) }] := by
    rw [hr1]
    exact addRowDelta_rows r0 tid RowField.tu 4 init row rt hr0rows hrt
  have hr1teams : r1.teams = alSet room.teams tid team2 := by
    rw [hr1, addRowDelta_teams, hr0teams]
  have hr2rows : r2.matchLog.rows
      = init ++ [refreshRowWith r1.teams
          { row with teams := alSet row.teams tid (bumpField rt RowField.tu 4) }] := by
    rw [hr2]
    exact refreshRowScores_rows r1 init _ hr1rows
  have hrowget : alGet (refreshRowWith r1.teams
      { row with teams := alSet row.teams tid (bumpField rt RowField.tu 4) }).teams tid
      = some { rt with tu := rt.tu + 4, score := team.score + 4 } := by
    rw [refreshRowWith_eq_foldl, hr1teams]
    have hnd2 : (alKeys (alSet room.teams tid team2)).Nodup := by
      rw [alKeys_alSet_of_get room.teams tid team team2 hteam]
      exact hnd
    have hteam2get : alGet (alSet room.teams tid team2) tid = some team2 :=
      alGet_alSet_self _ _ _
    have haccget : alGet (alSet row.teams tid (bumpField rt RowField.tu 4)) tid
        = some (bumpField rt RowField.tu 4) := alGet_alSet_self _ _ _
    have := refreshFold_mem (alSet room.teams tid team2)
      (alSet row.teams tid (bumpField rt RowField.tu 4)) tid team2
      (bumpField rt RowField.tu 4) hnd2 hteam2get haccget
    simpa [bumpField, hteam2] using this
  rw [resetTimerFull_bonus, setTimer_not_running]
  refine ⟨?_, ?_, rfl, rfl, rfl, rfl, ?_⟩
  · show alGet r2.teams tid = some team2
    rw [hr2teams]
    exact alGet_alSet_self _ _ _
  · refine ⟨refreshRowWith r1.teams ({ row with teams := alSet row.teams tid (bumpField rt RowField.tu 4) }), ?_, hrowget⟩
    show r2.matchLog.rows = _
    exact hr2rows
  · have hset : (clearBuzz r4).settings = room.settings := by
      show r2.settings = room.settings
      rw [hr2, refreshRowScores_settings, hr1, addRowDelta_settings]
    dsimp only
    rw [hset]

theorem mem_setAdd_self (l : List String) (x : String) : x ∈ setAdd l x := by
  unfold setAdd
  split
  · next h => exact List.mem_of_elem_eq_true h
  · exact List.mem_append_right _ (List.mem_singleton.mpr rfl)

/-- C3: with a locked buzz whose interrupt choice is set, marking the answer
incorrect unconditionally adds the buzzing team to `tossupLockedTeams` and
clears the buzz; then, when classified as an interrupt, the other team gains
4 points (a `p` delta in the current ledger row, refreshed into the row's
running score) and the phase becomes `tossup_reading` with a fresh paused
toss-up timer, while when not an interrupt no team score or ledger changes
and the phase becomes `tossup_live` with a fresh running toss-up timer and a
newly scheduled end-callback. -/
theorem host_mark_answer_incorrect_spec (room : Room) (sid : SocketId)
    (info : BuzzInfo) (b : Bool) (team other : Team) (oid : TeamId)
    (init : List Row) (row : Row) (rto : RowTeam) (t : Int)
    (hhost : room.hostSocketId = sid)
    (hbuzz : room.buzz = Buzz.locked info)
    (hchoice : info.interruptChoice = some b)
    (hne : info.winnerTeamId ≠ "")
    (hteam : alGet room.teams info.winnerTeamId = some team)
    (hnd : (alKeys room.teams).Nodup)
    (hother : otherTeamId room info.winnerTeamId = some oid)
    (hoteam : alGet room.teams oid = some other)
    (hrows : room.matchLog.rows = init ++ [row])
    (hrto : alGet row.teams oid = some rto) :
    info.winnerTeamId ∈ (host_mark_answer room sid false t).room.tossupLockedTeams
    ∧ (host_mark_answer room sid false t).room.buzz = Buzz.unlocked
    ∧ (b = true →
        alGet (host_mark_answer room sid false t).room.teams oid
            = some { other with score := other.score + 4 }
        ∧ (∃ row2, (host_mark_answer room sid false t).room.matchLog.rows
              = init ++ [row2]
            ∧ alGet row2.teams oid
                = some { rto with p := rto.p + 4, score := other.score + 4 })
        ∧ (host_mark_answer room sid false t).room.phase = Phase.tossup_reading
        ∧ (host_mark_answer room sid false t).room.timer
            = { mode := TimerMode.tossup, running := false,
                remainingMs := room.settings.tossupSeconds * 1000, endsAtMs := 0 }
        ∧ (host_mark_answer room sid false t).room.tossupEndTimeout = false)
    ∧ (b = false →
        (host_mark_answer room sid false t).room.teams = room.teams
        ∧ (host_mark_answer room sid false t).room.matchLog = room.matchLog
        ∧ (host_mark_answer room sid false t).room.phase = Phase.tossup_live
        ∧ (host_mark_answer room sid false t).room.timer
            = { mode := TimerMode.tossup, running := true,
                remainingMs := room.settings.tossupSeconds * 1000,
                endsAtMs := t + room.settings.tossupSeconds * 1000 }
        ∧ (host_mark_answer room sid false t).room.tossupEndTimeout = true) := by
  have h0 : ¬ room.hostSocketId ≠ sid := by simp [hhost]
  set tid := info.winnerTeamId with htid
  set rL : Room := { room with tossupLockedTeams := setAdd room.tossupLockedTeams tid } with hrL
  set r5 : Room := clearBuzz rL with hr5
  have hoid_ne : oid ≠ tid := by
    have hfind := List.find?_some hother
    simpa using hfind
  cases b with
  | false =>
    have hred : host_mark_answer room sid false t
        = ⟨scheduleTossupEnd (resetTimerFull { r5 with phase := Phase.tossup_live } TimerMode.tossup true t), [], true⟩ := by
      simp only [host_mark_answer, if_neg h0, hbuzz, hne, ite_false, if_false, hteam,
        hchoice, ite_true, if_true, Bool.false_eq_true]
      rw [← hbuzz]
    rw [hred]
    rw [resetTimerFull_tossup, setTimer_running]
    refine ⟨?_, rfl, ?_, ?_⟩
    · exact mem_setAdd_self _ _
    · intro hb
      exact absurd hb (by decide)
    · intro _
      exact ⟨rfl, rfl, rfl, rfl, rfl⟩
  | true =>
    set other2 : Team := { other with score := other.score + 4 } with hother2
    set r6 : Room := { r5 with teams := alSet r5.teams oid other2 } with hr6
    set r7 : Room := addRowDelta r6 oid RowField.p 4 with hr7
    set r8 : Room := refreshRowScores r7 with hr8
    have hred : host_mark_answer room sid false t
        = ⟨resetTimerFull { (clearTossupEndTimeout r8) with phase := Phase.tossup_reading } TimerMode.tossup false t, [], true⟩ := by
      simp only [host_mark_answer, if_neg h0, hbuzz, hne, ite_false, if_false, hteam,
        hchoice, ite_true, if_true, Bool.false_eq_true, otherTeamId, clearBuzz]
      have hfind := hother
      unfold otherTeamId at hfind
      rw [hfind]
      dsimp only
      rw [hoteam]
      rfl
    rw [hred]
    rw [resetTimerFull_tossup, setTimer_not_running]
    have hr6teams : r6.teams = alSet room.teams oid other2 := rfl
    have hr8teams : r8.teams = alSet room.teams oid other2 := by
      rw [hr8, refreshRowScores_teams, hr7, addRowDelta_teams, hr6teams]
    have hr6rows : r6.matchLog.rows = init ++ [row] := hrows
    have hr7rows : r7.matchLog.rows
        = init ++ [{ row with teams := alSet row.teams oid (bumpField rto RowField.p 4) }] := by
      rw [hr7]
      exact addRowDelta_rows r6 oid RowField.p 4 init row rto hr6rows hrto
    have hr7teams : r7.teams = alSet room.teams oid other2 := by
      rw [hr7, addRowDelta_teams, hr6teams]
    have hr8rows : r8.matchLog.rows
        = init ++ [refreshRowWith r7.teams { row with teams := alSet row.teams oid (bumpField rto RowField.p 4) }] := by
      rw [hr8]
      exact refreshRowScores_rows r7 init _ hr7rows
    have hrowget : alGet (refreshRowWith r7.teams
        { row with teams := alSet row.teams oid (bumpField rto RowField.p 4) }).teams oid
        = some { rto with p := rto.p + 4, score := other.score + 4 } := by
      rw [refreshRowWith_eq_foldl, hr7teams]
      have hnd2 : (alKeys (alSet room.teams oid other2)).Nodup := by
        rw [alKeys_alSet_of_get room.teams oid other other2 hoteam]
        exact hnd
      have hget2 : alGet (alSet room.teams oid other2) oid = some other2 :=
        alGet_alSet_self _ _ _
      have haccget : alGet (alSet row.teams oid (bumpField rto RowField.p 4)) oid
          = some (bumpField rto RowField.p 4) := alGet_alSet_self _ _ _
      have := refreshFold_mem (alSet room.teams oid other2)
        (alSet row.teams oid (bumpField rto RowField.p 4)) oid other2
        (bumpField rto RowField.p 4) hnd2 hget2 haccget
      simpa [bumpField, hother2] using this
    have hsettings : r8.settings = room.settings := by
      rw [hr8, refreshRowScores_settings, hr7, addRowDelta_settings]
      rfl
    refine ⟨?_, ?_, ?_, ?_⟩
    · show tid ∈ r8.tossupLockedTeams
      rw [hr8, refreshRowScores_locked, hr7, addRowDelta_locked]
      exact mem_setAdd_self _ _
    · show r8.buzz = Buzz.unlocked
      rw [hr8, refreshRowScores_buzz, hr7, addRowDelta_buzz]
      rfl
    · intro _
      refine ⟨?_, ?_, rfl, ?_, rfl⟩
      · show alGet r8.teams oid = some other2
        rw [hr8teams]
        exact alGet_alSet_self _ _ _
      · refine ⟨refreshRowWith r7.teams ({ row with teams := alSet row.teams oid (bumpField rto RowField.p 4) }), ?_, hrowget⟩
        show r8.matchLog.rows = _
        exact hr8rows
      · have hset2 : (clearTossupEndTimeout r8).settings = room.settings := hsettings
        dsimp only
        rw [hset2]
    · intro hb
      exact absurd hb (by decide)

/-! ### Concrete fixtures for witnesses and counterexamples -/

def wTeamA : Team := { id := "T0", name := "Team A", score := 8 }

def wTeamB : Team := { id := "T1", name := "Team B", score := 4 }

def wRowA : RowTeam := { p := 0, tu := 0, b := 0, score := 8 }

def wRowB : RowTeam := { p := 0, tu := 0, b := 0, score := 4 }

def wRow : Row := { num := 1, teams := [("T0", wRowA), ("T1", wRowB)] }

def wInfo : BuzzInfo :=
  { winnerSocketId := "pa", winnerName := "Alice", winnerTeamId := "T0",
    atMs := 1500, interruptChoice := some true }

def wRoom : Room :=
  { code := "AAAAAA", roomName := "R", hostSocketId := "h",
    settings := { tossupSeconds := 5, bonusSeconds := 20 },
    teams := [("T0", wTeamA), ("T1", wTeamB)],
    players := [],
    phase := Phase.tossup_live, activeBonusTeamId := none,
    tossupLockedTeams := [], buzz := Buzz.locked wInfo,
    timer := { mode := TimerMode.tossup, running := false, remainingMs := 3500,
               endsAtMs := 0 },
    tossupEndTimeout := false,
    matchLog := { tossupNumber := 1, rows := [wRow] } }

/-- Witness for C4 at a concrete room. -/
theorem host_mark_answer_correct_spec_witness :
    alGet (host_mark_answer wRoom "h" true 2000).room.teams "T0"
        = some { wTeamA with score := wTeamA.score + 4 }
    ∧ (host_mark_answer wRoom "h" true 2000).room.phase = Phase.bonus_reading := by
  have h := host_mark_answer_correct_spec wRoom "h" wInfo true wTeamA [] wRow wRowA
    2000 rfl rfl rfl (by decide) rfl (by decide) rfl rfl
  exact ⟨h.1, h.2.2.2.2.1⟩

/-- Witness for C3 at a concrete room (interrupt classification). -/
theorem host_mark_answer_incorrect_spec_witness :
    "T0" ∈ (host_mark_answer wRoom "h" false 2000).room.tossupLockedTeams
    ∧ (host_mark_answer wRoom "h" false 2000).room.phase = Phase.tossup_reading := by
  have h := host_mark_answer_incorrect_spec wRoom "h" wInfo true wTeamA wTeamB "T1"
    [] wRow wRowB 2000 rfl rfl rfl (by decide) rfl (by decide) (by decide) rfl rfl rfl
  exact ⟨h.1, (h.2.2.1 rfl).2.2.1⟩

/-! ### C8: room-code collision -/

def c8teamIds : Nat → TeamId := fun i => "T" ++ toString i

/-- An existing live room stored under code "AAAAAA". -/
def c8oldRoom : Room := buildRoom "host1" "Olivia" "Old Room" (some 2) "AAAAAA" c8teamIds

/-- C8 fails on the code: `genCode` is called once with no collision check,
and `rooms.set(code, room)` replaces the live room stored under the same
code.  With the random oracle returning 0 the generated code is "AAAAAA",
and creating a room destroys the existing room's entry. -/
theorem create_room_collision_overwrites :
    genCode (fun _ => 0) = "AAAAAA"
    ∧ (create_room [("AAAAAA", c8oldRoom)] "host2" "Nia" "New Room" (some 2)
        (fun _ => 0) c8teamIds).1
      = [("AAAAAA", buildRoom "host2" "Nia" "New Room" (some 2) "AAAAAA" c8teamIds)]
    ∧ alGet ((create_room [("AAAAAA", c8oldRoom)] "host2" "Nia" "New Room" (some 2)
        (fun _ => 0) c8teamIds).1) "AAAAAA" ≠ some c8oldRoom := by
  refine ⟨rfl, rfl, ?_⟩
  intro h
  simp [alGet] at h
  have h2 : ("host2" : String) = "host1" := congrArg Room.hostSocketId h.2
  exact absurd h2 (by decide)

/-! ### C9: team assignment across commands -/

theorem alGet_alDelete_ne {α : Type} (l : List (String × α)) (k k2 : String)
    (h : k ≠ k2) : alGet (alDelete l k2) k = alGet l k := by
  induction l with
  | nil => rfl
  | cons kv rest ih =>
    obtain ⟨k1, v1⟩ := kv
    by_cases hk : k1 = k2
    · subst hk
      have hne : k1 ≠ k := fun hh => h hh.symm
      simp [alDelete, alGet, hne] at ih ⊢
      exact ih
    · simp [alDelete, alGet, hk] at ih ⊢
      by_cases hk2 : k1 = k
      · simp [hk2]
      · simp [hk2]
        exact ih

theorem addRowDelta_players (room : Room) (tid : TeamId) (f : RowField) (pts : Int) :
    (addRowDelta room tid f pts).players = room.players := by
  unfold addRowDelta
  split <;> rfl

theorem refreshRowScores_players (room : Room) :
    (refreshRowScores room).players = room.players := by
  unfold refreshRowScores
  split <;> rfl

theorem alGet_alDelete_self {α : Type} (l : List (String × α)) (k : String) :
    alGet (alDelete l k) k = none := by
  induction l with
  | nil => rfl
  | cons kv rest ih =>
    obtain ⟨k1, v1⟩ := kv
    by_cases hk : k1 = k
    · simpa [alDelete, hk] using ih
    · simpa [alDelete, alGet, hk] using ih

theorem fireRoom_players (room : Room) (t : Int) :
    (fireRoom room t).players = room.players := by
  unfold fireRoom
  dsimp only
  split <;> rfl

/-- Every client command except a join leaves the player map untouched. -/
theorem handleCmd_players (room : Room) (c : ClientOp) (t : Int)
    (h : ∀ s n tid sp, c ≠ ClientOp.joinRoom s n tid sp) :
    (handleCmd room c t).room.players = room.players := by
  cases c with
  | joinRoom s n tid sp => exact absurd rfl (h s n tid sp)
  | _ =>
    simp only [handleCmd, host_set_room_name, host_set_team_name, set_team,
      host_start_tossup_reading, host_done_reading_tossup, buzz, host_clear_buzz,
      host_set_interrupt_choice, host_mark_answer, host_done_reading_bonus,
      host_award_bonus, host_skip_bonus, resetTimerFull, setTimer, stopTimer,
      clearBuzz, clearTossupEndTimeout, scheduleTossupEnd, startNewTossupRow]
    repeat' split
    all_goals simp [addRowDelta_players, refreshRowScores_players]

/-- C9 (amended): `set_team` is a complete no-op, and no event other than a
repeated `join_room` from the same connection changes the teamId recorded
for that connection while the player remains in the room.  (The original
claim also covered repeated joins, but a repeated join replaces the player
record and can change the team.) -/
theorem teamId_fixed_unless_rejoin (room : Room) (op : Op) (t : Int)
    (sid : SocketId) (p p' : Player) (room' : Room)
    (hstep : stepRoom room op t = some room')
    (hbefore : alGet room.players sid = some p)
    (hafter : alGet room'.players sid = some p')
    (hnotjoin : ∀ name teamId spectate,
      op ≠ Op.cmd (ClientOp.joinRoom sid name teamId spectate)) :
    p'.teamId = p.teamId
    ∧ stepRoom room (Op.cmd (ClientOp.setTeam sid)) t = some room := by
  refine ⟨?_, rfl⟩
  cases op with
  | cmd c =>
    simp only [stepRoom, Option.some.injEq] at hstep
    subst hstep
    by_cases hj : ∃ s n tid sp, c = ClientOp.joinRoom s n tid sp
    · rcases hj with ⟨s, n, tid, sp, rfl⟩
      have hs : s ≠ sid := by
        intro hss
        subst hss
        exact (hnotjoin n tid sp) rfl
      have hPlayers : (handleCmd room (ClientOp.joinRoom s n tid sp) t).room.players
          = room.players
          ∨ ∃ pl, (handleCmd room (ClientOp.joinRoom s n tid sp) t).room.players
              = alSet room.players s pl := by
        simp only [handleCmd, join_room]
        repeat' split
        all_goals simp
        all_goals exact Or.inr ⟨_, rfl⟩
      rcases hPlayers with hP | ⟨pl, hP⟩
      · rw [hP, hbefore] at hafter
        cases hafter
        rfl
      · rw [hP, alGet_alSet_ne _ _ _ _ hs.symm] at hafter
        rw [hbefore] at hafter
        cases hafter
        rfl
    · push_neg at hj
      have hP := handleCmd_players room c t (fun s n tid sp hc => hj s n tid sp hc)
      rw [hP, hbefore] at hafter
      cases hafter
      rfl
  | disconnect sid2 =>
    simp only [stepRoom] at hstep
    by_cases hhas : alHas room.players sid2
    · rw [if_pos hhas] at hstep
      by_cases hhost : room.hostSocketId = sid2
      · rw [if_pos hhost] at hstep
        cases hstep
      · rw [if_neg hhost] at hstep
        simp only [Option.some.injEq] at hstep
        subst hstep
        by_cases hsid : sid = sid2
        · subst hsid
          rw [alGet_alDelete_self] at hafter
          cases hafter
        · rw [alGet_alDelete_ne _ _ _ hsid, hbefore] at hafter
          cases hafter
          rfl
    · rw [if_neg hhas] at hstep
      simp only [Option.some.injEq] at hstep
      subst hstep
      rw [hbefore] at hafter
      cases hafter
      rfl
  | fireEv =>
    simp only [stepRoom, Option.some.injEq] at hstep
    subst hstep
    rw [fireRoom_players, hbefore] at hafter
    cases hafter
    rfl

/-- Witness for C9 (amended), applied to a concrete rejected buzz. -/
theorem teamId_fixed_unless_rejoin_witness :
    stepRoom c6room (Op.cmd (ClientOp.setTeam "pb")) 100 = some c6room := by
  have hnj : ∀ (n : String) (tid : Option TeamId) (sp : Bool),
      Op.cmd (ClientOp.buzzOp "pb") ≠ Op.cmd (ClientOp.joinRoom "pb" n tid sp) := by
    intro n tid sp hEq
    cases hEq
  have h := teamId_fixed_unless_rejoin c6room (Op.cmd (ClientOp.buzzOp "pb")) 100 "pb"
    ({ socketId := "pb", name := "Bob", teamId := some "T1", isHost := false, isSpectator := false })
    ({ socketId := "pb", name := "Bob", teamId := some "T1", isHost := false, isSpectator := false })
    c6room rfl rfl rfl hnj
  exact h.2

/-! ### C2: buzz arbitration and lockout persistence -/

/-- The operations that reset `tossupLockedTeams` (lines 316, 493, 508):
`host_start_tossup_reading`, `host_award_bonus` and `host_skip_bonus`. -/
def resetsLockouts : Op → Bool
  | .cmd (.start_tossup_reading _) => true
  | .cmd (.award_bonus _ _) => true
  | .cmd (.skip_bonus _) => true
  | _ => false

def isStartTossup : Op → Bool
  | .cmd (.start_tossup_reading _) => true
  | _ => false

/-- One step that is not a lockout reset keeps a locked-out team `T` in the
set and never hands it the buzz lock. -/
theorem step_preserves_lockout (room : Room) (op : Op) (t : Int) (T : TeamId)
    (room' : Room) (hstep : stepRoom room op t = some room')
    (hmem : T ∈ room.tossupLockedTeams)
    (hbuzz : room.buzz.winnerTeam ≠ some T)
    (hop : resetsLockouts op = false) :
    T ∈ room'.tossupLockedTeams ∧ room'.buzz.winnerTeam ≠ some T := by
  cases op with
  | cmd c =>
    simp only [stepRoom, Option.some.injEq] at hstep
    subst hstep
    cases c <;>
      simp only [handleCmd, host_set_room_name, host_set_team_name, join_room,
        set_team, host_start_tossup_reading, host_done_reading_tossup, buzz,
        host_clear_buzz, host_set_interrupt_choice, host_mark_answer,
        host_done_reading_bonus, host_award_bonus, host_skip_bonus,
        resetTimerFull, setTimer, stopTimer, clearBuzz, clearTossupEndTimeout,
        scheduleTossupEnd, startNewTossupRow] <;>
      (repeat' split) <;>
      simp_all [resetsLockouts, Buzz.winnerTeam, addRowDelta_locked,
        refreshRowScores_locked, addRowDelta_buzz, refreshRowScores_buzz,
        mem_setAdd_of_mem] <;>
      (intro hTeq; subst hTeq; exact absurd hmem (by simp_all))
  | disconnect sid =>
    simp only [stepRoom] at hstep
    split at hstep
    · split at hstep
      · cases hstep
      · simp only [Option.some.injEq] at hstep
        subst hstep
        exact ⟨hmem, hbuzz⟩
    · simp only [Option.some.injEq] at hstep
      subst hstep
      exact ⟨hmem, hbuzz⟩
  | fireEv =>
    simp only [stepRoom, Option.some.injEq] at hstep
    subst hstep
    unfold fireRoom
    dsimp only
    split
    · exact ⟨hmem, by simp [clearBuzz, Buzz.winnerTeam]⟩
    · exact ⟨hmem, hbuzz⟩

/-- Lockout persistence along any event sequence containing no lockout
reset. -/
theorem runOps_preserves_lockout (ops : List (Op × Int)) (room : Room)
    (T : TeamId) (room' : Room)
    (hmem : T ∈ room.tossupLockedTeams)
    (hbuzz : room.buzz.winnerTeam ≠ some T)
    (hall : ∀ e ∈ ops, resetsLockouts e.1 = false)
    (hrun : runOps room ops = some room') :
    T ∈ room'.tossupLockedTeams ∧ room'.buzz.winnerTeam ≠ some T := by
  induction ops generalizing room with
  | nil =>
    simp only [runOps, Option.some.injEq] at hrun
    subst hrun
    exact ⟨hmem, hbuzz⟩
  | cons e rest ih =>
    obtain ⟨op, te⟩ := e
    simp only [runOps] at hrun
    cases hstep : stepRoom room op te with
    | none =>
      rw [hstep] at hrun
      cases hrun
    | some r1 =>
      rw [hstep] at hrun
      have hrun2 : runOps r1 rest = some room' := hrun
      have h1 := step_preserves_lockout room op te T r1 hstep hmem hbuzz
        (hall (op, te) (List.mem_cons_self _ _))
      exact ih r1 h1.1 h1.2 (fun e he => hall e (List.mem_cons_of_mem _ he)) hrun2

/-- C2 (amended): buzz arbitration is first-writer-wins with team lockout —
a buzz is rejected (total no-op, no broadcast, no error) whenever the buzz
is already locked or the caller's team is in `tossupLockedTeams`; and a team
in `tossupLockedTeams` stays there, and can never acquire the lock, along
any event sequence free of lockout resets.  (The original claim named
start-tossup-reading as the only reset; the bonus-resolution commands
also reset the set.) -/
theorem buzz_arbitration_spec (room : Room) (sid : SocketId) (t : Int)
    (T : TeamId) (ops : List (Op × Int)) (room' : Room) :
    (room.buzz.isLocked = true → buzz room sid t = ⟨room, [], false⟩)
    ∧ (∀ p tid, alGet room.players sid = some p → p.teamId = some tid →
        room.tossupLockedTeams.contains tid = true →
        buzz room sid t = ⟨room, [], false⟩)
    ∧ (T ∈ room.tossupLockedTeams → room.buzz.winnerTeam ≠ some T →
        (∀ e ∈ ops, resetsLockouts e.1 = false) →
        runOps room ops = some room' →
        T ∈ room'.tossupLockedTeams ∧ room'.buzz.winnerTeam ≠ some T) := by
  refine ⟨?_, ?_, ?_⟩
  · intro hlock
    unfold buzz
    (repeat' split) <;> simp_all
  · intro p tid hp htid hcont
    unfold buzz
    (repeat' split) <;> simp_all
  · intro hmem hbuzz hall hrun
    exact runOps_preserves_lockout ops room T room' hmem hbuzz hall hrun

/-- Witness for C2 (amended): a concrete locked room rejects a second buzz,
and the empty sequence preserves a concrete lockout. -/
theorem buzz_arbitration_spec_witness :
    buzz c6room "pb" 100 = ⟨c6room, [], false⟩
    ∧ ("T9" ∈ ({ c6room with tossupLockedTeams := ["T9"] } : Room).tossupLockedTeams
        ∧ ({ c6room with tossupLockedTeams := ["T9"] } : Room).buzz.winnerTeam
            ≠ some "T9") := by
  refine ⟨(buzz_arbitration_spec c6room "pb" 100 "T0" [] c6room).1 rfl, ?_⟩
  exact (buzz_arbitration_spec { c6room with tossupLockedTeams := ["T9"] } "pb" 100
    "T9" [] { c6room with tossupLockedTeams := ["T9"] }).2.2 (by decide) (by decide)
    (fun e he => absurd he (List.not_mem_nil e)) rfl

/-! #### C2 counterexample trace -/

def c2teamIds : Nat → TeamId := fun i => "T" ++ toString i

def c2reg : Registry :=
  (create_room [] "hostS" "Harry" "Demo" (some 2) (fun _ => 0) c2teamIds).1

def c2room0 : Room := (alGet c2reg "AAAAAA").getD wRoom

/-- Joins, a toss-up, a wrong interrupting buzz by team "T0" (locking the
team out), a correct buzz by team "T1". -/
def c2prefixOps : List (Op × Int) :=
  [(Op.cmd (ClientOp.joinRoom "pa" "Alice" (some "T0") false), 0),
   (Op.cmd (ClientOp.joinRoom "pb" "Bob" (some "T1") false), 0),
   (Op.cmd (ClientOp.start_tossup_reading "hostS"), 10),
   (Op.cmd (ClientOp.done_reading_tossup "hostS"), 1000),
   (Op.cmd (ClientOp.buzzOp "pa"), 2000),
   (Op.cmd (ClientOp.set_interrupt_choice "hostS" false), 2100),
   (Op.cmd (ClientOp.mark_answer "hostS" false), 3000),
   (Op.cmd (ClientOp.buzzOp "pb"), 4000),
   (Op.cmd (ClientOp.set_interrupt_choice "hostS" false), 4100),
   (Op.cmd (ClientOp.mark_answer "hostS" true), 5000)]

/-- The bonus is skipped (resetting the lockout set), the next toss-up goes
live with no `start-tossup-reading`, and the locked-out team buzzes in. -/
def c2suffixOps : List (Op × Int) :=
  [(Op.cmd (ClientOp.skip_bonus "hostS"), 6000),
   (Op.cmd (ClientOp.done_reading_tossup "hostS"), 7000),
   (Op.cmd (ClientOp.buzzOp "pa"), 8000)]

/-- Counterexample to C2 as stated: team "T0" is in `tossupLockedTeams`
after the prefix, the suffix contains no `start-tossup-reading`, and yet
"T0" holds the buzz lock at the end — because `skip-bonus` also resets the
lockout set. -/
theorem lockout_relock_without_start :
    (match runOps c2room0 c2prefixOps with
     | some r => decide ("T0" ∈ r.tossupLockedTeams)
     | none => false) = true
    ∧ c2suffixOps.all (fun oi => !isStartTossup oi.1) = true
    ∧ (match runOps c2room0 (c2prefixOps ++ c2suffixOps) with
       | some r => decide (r.buzz.winnerTeam = some "T0")
       | none => false) = true := by
  refine ⟨rfl, rfl, rfl⟩

/-- Counterexample to C9 as stated: a repeated `join_room` from the same
connection replaces the player record and changes the recorded teamId from
"T0" to "T1", with no intervening leave. -/
theorem join_room_reassigns_team :
    (alGet ((join_room wRoom "p1" "Zoe" (some "T0") false).room.players)
        "p1").map Player.teamId = some (some "T0")
    ∧ (alGet ((join_room ((join_room wRoom "p1" "Zoe" (some "T0") false).room)
        "p1" "Zoe" (some "T1") false).room.players) "p1").map Player.teamId
      = some (some "T1") := by
  exact ⟨rfl, rfl⟩

end ScibowlBuzzer
